import Mathlib

/-!
Verification of the ntex-app video CRUD service.

The embedding models the `videos` table as a list of rows plus the SQLite
autoincrement counter.  Timestamps are natural-number clock ticks; the
`Utc::now()` readings taken inside one repository operation (the operation
body and the `before_save` hook) are modelled as a single `now` value
passed to the operation.  Rust `u64` arithmetic that can wrap is made
explicit with `% 2 ^ 64` (release-build wrapping semantics; debug builds
would panic at the same spot).

Sources embedded: `src/entity/video.rs` (Model, ActiveModelBehavior),
`src/repositories/video_repository.rs` (VideoRepository), `src/api.rs`
(request/response shapes and validator attributes), `src/error/mod.rs`
(AppError), `src/services/video_service.rs` (VideoService), and the
pagination arithmetic of `src/db.rs::list_videos`.
-/

namespace NtexApp

/-- `entity/video.rs::Model`: one row of the `videos` table.
`id` is the `i32` surrogate primary key (SQLite autoincrement, so in
practice positive); timestamps are clock ticks; `deleted_at = none`
means the row is active. -/
structure Video where
  id : Nat
  title : String
  youtube_id : String
  created_at : Nat
  updated_at : Nat
  deleted_at : Option Nat
deriving DecidableEq, Repr

/-- The storage state: the rows of the `videos` table in insertion order,
plus the SQLite autoincrement counter (`nextId`), which starts at 1. -/
structure Db where
  rows : List Video
  nextId : Nat
deriving DecidableEq, Repr

/-- `db.rs::VideoQuery`: the list-endpoint query string.  `page` and
`per_page` are `u64` in the source. -/
structure VideoQuery where
  page : Option Nat
  per_page : Option Nat
  search : Option String
  order_by : Option String
  order_direction : Option String
deriving DecidableEq, Repr

/-- `api.rs::CreateVideoRequest` payload. -/
structure CreateVideoRequest where
  title : String
  youtube_id : String
deriving DecidableEq, Repr

/-- `api.rs::UpdateVideoRequest` payload: both fields optional. -/
structure UpdateVideoRequest where
  title : Option String
  youtube_id : Option String
deriving DecidableEq, Repr

/-- `api.rs::VideoResponse`: the JSON shape returned by the service. -/
structure VideoResponse where
  id : Nat
  title : String
  youtube_id : String
  created_at : Nat
  updated_at : Nat
  deleted_at : Option Nat
deriving DecidableEq, Repr

/-- `error/mod.rs::AppError` (the variant used by the service layer). -/
inductive AppError where
  | Database : String → AppError
  | Validation : String → AppError
  | NotFound : String → AppError
  | BadRequest : String → AppError
  | Internal : String → AppError
deriving DecidableEq, Repr

/-- `pat` occurs as a contiguous subsequence of `hay`. -/
def hasInfix (pat : List Char) : List Char → Bool
  | [] => pat.isEmpty
  | c :: cs => pat.isPrefixOf (c :: cs) || hasInfix pat cs

/-- SeaORM `Column::contains`, i.e. SQL `LIKE '%pat%'`: substring
containment on the character sequence (the spec leaves collation to the
storage engine; we model the case-sensitive reading). -/
def strContains (hay pat : String) : Bool :=
  hasInfix pat.data hay.data

/-- `2 ^ 64`, the modulus of Rust `u64` arithmetic. -/
def U64SIZE : Nat := 2 ^ 64

/-- Rust `u64` subtraction `a - b` in release builds: wraps modulo
`2 ^ 64` (a debug build panics when `a < b`).  Inputs are `u64` values,
so `a, b < 2 ^ 64`. -/
def u64sub (a b : Nat) : Nat := (a + U64SIZE - b) % U64SIZE

/-- Rust `u64` multiplication, wrapping modulo `2 ^ 64`. -/
def u64mul (a b : Nat) : Nat := (a * b) % U64SIZE

/-- Descending order on `created_at`, the relation realised by
`order_by_desc(video::Column::CreatedAt)`. -/
def createdDescRel (a b : Video) : Prop := b.created_at ≤ a.created_at

instance : DecidableRel createdDescRel := fun a b =>
  inferInstanceAs (Decidable (b.created_at ≤ a.created_at))

instance : IsTotal Video createdDescRel :=
  ⟨fun a b => (Nat.le_total a.created_at b.created_at).symm⟩

instance : IsTrans Video createdDescRel :=
  ⟨fun _ _ _ h1 h2 => Nat.le_trans h2 h1⟩

/-- SQL `ORDER BY created_at DESC`: sort the rows descending by
`created_at` (tie order among equal keys is not observable to any claim). -/
def sortByCreatedDesc (l : List Video) : List Video :=
  l.insertionSort createdDescRel

namespace VideoRepository

/-- `VideoRepository::create` followed by `before_save(insert = true)`
(`entity/video.rs` lines 30-40): inserts a fresh row whose `title` and
`youtube_id` come from the request and whose `created_at` and
`updated_at` are both the operation's clock reading; `deleted_at` is not
set, so the column is NULL; the id is the autoincrement counter. -/
def create (db : Db) (now : Nat) (title youtube_id : String) : Video × Db :=
  let v : Video :=
    { id := db.nextId, title := title, youtube_id := youtube_id,
      created_at := now, updated_at := now, deleted_at := none }
  (v, { rows := db.rows ++ [v], nextId := db.nextId + 1 })

/-- `VideoRepository::find_by_id` (lines 67-75): select by primary key
with the extra filter `deleted_at IS NULL`. -/
def find_by_id (db : Db) (id : Nat) : Option Video :=
  db.rows.find? (fun v => v.id == id && v.deleted_at.isNone)

/-- `VideoRepository::update` (lines 89-110): load the active row via
`find_by_id`; when absent return `None` and leave the table untouched;
otherwise issue `UPDATE videos SET <provided fields>, updated_at = now
WHERE id = ?` (the `updated_at` column is set by `before_save` with
`insert = false`) and return the updated row. -/
def update (db : Db) (now : Nat) (id : Nat)
    (title youtube_id : Option String) : Option Video × Db :=
  match find_by_id db id with
  | none => (none, db)
  | some v =>
    let apply := fun (w : Video) =>
      { w with
        title := title.getD w.title,
        youtube_id := youtube_id.getD w.youtube_id,
        updated_at := now }
    (some (apply v),
     { db with rows := db.rows.map (fun w => if w.id = id then apply w else w) })

/-- `VideoRepository::delete` (lines 122-133): load the active row via
`find_by_id`; when absent return `false` without touching the table;
otherwise issue `UPDATE videos SET deleted_at = now, updated_at = now
WHERE id = ?` (`updated_at` again set by `before_save`) and return
`true`. -/
def delete (db : Db) (now : Nat) (id : Nat) : Bool × Db :=
  match find_by_id db id with
  | none => (false, db)
  | some _ =>
    (true,
     { db with rows := db.rows.map (fun w =>
        if w.id = id then { w with deleted_at := some now, updated_at := now } else w) })

/-- The WHERE clause built by `VideoRepository::list` (lines 149-154):
`deleted_at IS NULL`, and when a search string is supplied additionally
`title LIKE '%search%'`.  Note the source filters on `title` only. -/
def listFilter (q : VideoQuery) (v : Video) : Bool :=
  v.deleted_at.isNone &&
  (match q.search with
   | some s => strContains v.title s
   | none => true)

/-- `VideoRepository::list` (lines 145-167): defaults `page := 1`,
`per_page := 10`; filters with `listFilter`; always orders by
`created_at DESC` (the query's `order_by` / `order_direction` fields are
not read); `total` is the paginator's `num_items`, the count of filtered
rows; the returned page is `fetch_page(page - 1)`, i.e. offset
`(page - 1) * per_page` and limit `per_page`, on `u64` arithmetic.
The `drop`/`take` rendering of OFFSET/LIMIT is exact for in-range
offsets (`page ≥ 1`); for `page = 0` the wrapped `u64` offset is handed
to the storage driver as a signed 64-bit value, whose clamping or bind
error is engine behaviour outside this embedding. -/
def list (db : Db) (q : VideoQuery) : List Video × Nat :=
  let page := q.page.getD 1
  let per_page := q.per_page.getD 10
  let filtered := db.rows.filter (listFilter q)
  let sorted := sortByCreatedDesc filtered
  let total := filtered.length
  let pageIdx := u64sub page 1
  let videos := (sorted.drop (u64mul pageIdx per_page)).take per_page
  (videos, total)

end VideoRepository

/-- The `validator` crate's length check: character count between `lo`
and `hi` inclusive (`HasLen` for strings counts chars). -/
def lengthOk (s : String) (lo hi : Nat) : Bool :=
  lo ≤ s.length && s.length ≤ hi

/-- `#[derive(Validate)]` on `CreateVideoRequest`:
`title` has `length(min = 1, max = 100)`, `youtube_id` has
`length(min = 11, max = 11)`.  The error value models
`ValidationErrors::to_string()` as the list of violated fields. -/
def CreateVideoRequest.validate (r : CreateVideoRequest) : Except String Unit :=
  let errs :=
    (if lengthOk r.title 1 100 then [] else ["title"]) ++
    (if r.youtube_id.length == 11 then [] else ["youtube_id"])
  if errs.isEmpty then Except.ok () else Except.error (String.intercalate ", " errs)

/-- `#[derive(Validate)]` on `UpdateVideoRequest`: the same constraints,
but each field is optional and `none` is skipped. -/
def UpdateVideoRequest.validate (r : UpdateVideoRequest) : Except String Unit :=
  let errs :=
    (match r.title with
     | some t => if lengthOk t 1 100 then [] else ["title"]
     | none => []) ++
    (match r.youtube_id with
     | some y => if y.length == 11 then [] else ["youtube_id"]
     | none => [])
  if errs.isEmpty then Except.ok () else Except.error (String.intercalate ", " errs)

namespace VideoService

/-- The service's not-found message:
`format!("Video with id {} not found", id)`. -/
def notFoundMsg (id : Nat) : String :=
  "Video with id " ++ toString id ++ " not found"

/-- The field-by-field mapping from a row to `VideoResponse` performed in
every service method. -/
def toResponse (v : Video) : VideoResponse :=
  { id := v.id, title := v.title, youtube_id := v.youtube_id,
    created_at := v.created_at, updated_at := v.updated_at,
    deleted_at := v.deleted_at }

/-- `VideoService::create_video` (lines 89-103): validate the request
first; on failure return `AppError::Validation` without touching the
repository; on success call `VideoRepository::create` and map the row. -/
def create_video (db : Db) (now : Nat) (req : CreateVideoRequest) :
    Except AppError VideoResponse × Db :=
  match CreateVideoRequest.validate req with
  | Except.error e => (Except.error (AppError.Validation e), db)
  | Except.ok _ =>
    let (v, db') := VideoRepository.create db now req.title req.youtube_id
    (Except.ok (toResponse v), db')

/-- `VideoService::get_video` (lines 133-145): `find_by_id`, mapping
absence to `AppError::NotFound`. -/
def get_video (db : Db) (id : Nat) : Except AppError VideoResponse :=
  match VideoRepository.find_by_id db id with
  | some v => Except.ok (toResponse v)
  | none => Except.error (AppError.NotFound (notFoundMsg id))

/-- `VideoService::update_video` (lines 183-199): validate, then call
`VideoRepository::update`; absence becomes `AppError::NotFound`. -/
def update_video (db : Db) (now : Nat) (id : Nat) (req : UpdateVideoRequest) :
    Except AppError VideoResponse × Db :=
  match UpdateVideoRequest.validate req with
  | Except.error e => (Except.error (AppError.Validation e), db)
  | Except.ok _ =>
    match VideoRepository.update db now id req.title req.youtube_id with
    | (some v, db') => (Except.ok (toResponse v), db')
    | (none, db') => (Except.error (AppError.NotFound (notFoundMsg id)), db')

/-- `VideoService::delete_video` (lines 232-238): call
`VideoRepository::delete`; a `false` result becomes `AppError::NotFound`,
a `true` result is returned as `Ok(true)`. -/
def delete_video (db : Db) (now : Nat) (id : Nat) : Except AppError Bool × Db :=
  let (deleted, db') := VideoRepository.delete db now id
  if deleted then (Except.ok true, db')
  else (Except.error (AppError.NotFound (notFoundMsg id)), db')

end VideoService

/-- Whether a service result is a validation error. -/
def isValidationErr : Except AppError VideoResponse → Bool
  | Except.error (AppError.Validation _) => true
  | _ => false

/-! ### Sample rows, tables and queries used in concrete instances -/

/-- A table holding a single soft-deleted row with id 1. -/
def dbW1 : Db := ⟨[⟨1, "t", "yyyyyyyyyyy", 0, 3, some 3⟩], 2⟩

/-- An active row whose `youtube_id` contains "SEARCH" but whose `title`
does not. -/
def cv2 : Video := ⟨1, "abc", "xyzSEARCHxyz", 0, 0, none⟩

def db2 : Db := ⟨[cv2], 2⟩

def q2 : VideoQuery := ⟨some 1, some 10, some "SEARCH", none, none⟩

def dbW2 : Db := ⟨[⟨1, "a match", "yyyyyyyyyyy", 0, 0, none⟩], 2⟩

def qW2 : VideoQuery := ⟨some 1, some 10, some "match", none, none⟩

/-- Two active rows: title "a" created first, title "b" created second. -/
def v3a : Video := ⟨1, "a", "y1yyyyyyyyy", 1, 1, none⟩

def v3b : Video := ⟨2, "b", "y2yyyyyyyyy", 2, 2, none⟩

def db3 : Db := ⟨[v3a, v3b], 3⟩

/-- A query asking for ascending order by title. -/
def q3 : VideoQuery := ⟨some 1, some 10, none, some "title", some "asc"⟩

def dbW4 : Db := ⟨[⟨1, "t", "yyyyyyyyyyy", 0, 0, none⟩], 2⟩

def vW6 : Video := ⟨1, "old", "yyyyyyyyyyy", 0, 0, none⟩

def dbW6 : Db := ⟨[vW6], 2⟩

def vW10 : Video := ⟨1, "t", "yyyyyyyyyyy", 0, 0, none⟩

def dbW10 : Db := ⟨[vW10], 2⟩

/-! ### Helper lemmas -/

/-- Every row returned by `VideoRepository.list` comes from the table and
satisfies the WHERE clause. -/
theorem mem_list_mem_filter {db : Db} {q : VideoQuery} {v : Video}
    (hv : v ∈ (VideoRepository.list db q).1) :
    v ∈ db.rows ∧ VideoRepository.listFilter q v = true := by
  simp only [VideoRepository.list] at hv
  have h1 := List.take_subset _ _ hv
  have h2 := List.drop_subset _ _ h1
  rw [sortByCreatedDesc, List.mem_insertionSort] at h2
  exact List.mem_filter.mp h2

/-- After `VideoRepository.delete`, no active row with the deleted id
remains (every row with that id carries a tombstone). -/
theorem find_by_id_after_delete (db : Db) (now : Nat) (id : Nat) :
    VideoRepository.find_by_id (VideoRepository.delete db now id).2 id = none := by
  unfold VideoRepository.delete
  cases hf : VideoRepository.find_by_id db id with
  | none => simpa using hf
  | some v =>
    simp only
    unfold VideoRepository.find_by_id
    rw [List.find?_eq_none]
    intro w hw
    obtain ⟨u, _, rfl⟩ := List.mem_map.mp hw
    by_cases hu : u.id = id <;>
      simp [hu]

/-- `VideoService.delete_video` on a table with no active row of the
given id: NotFound, table untouched. -/
theorem delete_video_notfound (db : Db) (now : Nat) (id : Nat)
    (h : VideoRepository.find_by_id db id = none) :
    VideoService.delete_video db now id =
      (Except.error (AppError.NotFound (VideoService.notFoundMsg id)), db) := by
  simp [VideoService.delete_video, VideoRepository.delete, h]

/-! ### Claims -/

/-- C1.  Soft-delete invisibility: whenever every row carrying a given id
is soft-deleted (`deleted_at` non-null), `find_by_id` returns none and
`update` on that id returns absent leaving the table untouched; moreover
every row returned by `list` is active.  The state `db` is universally
quantified, so the property holds after any sequence of
create/update/delete operations. -/
theorem soft_deleted_rows_invisible (db : Db) (now : Nat) (id : Nat)
    (t y : Option String)
    (h : ∀ v ∈ db.rows, v.id = id → v.deleted_at ≠ none) :
    VideoRepository.find_by_id db id = none ∧
    VideoRepository.update db now id t y = (none, db) ∧
    (∀ q : VideoQuery, ∀ v ∈ (VideoRepository.list db q).1, v.deleted_at = none) := by
  have hfind : VideoRepository.find_by_id db id = none := by
    unfold VideoRepository.find_by_id
    rw [List.find?_eq_none]
    intro v hv
    simp only [Bool.and_eq_true, beq_iff_eq, Option.isNone_iff_eq_none, not_and]
    exact h v hv
  refine ⟨hfind, ?_, ?_⟩
  · simp [VideoRepository.update, hfind]
  · intro q v hv
    have hf := (mem_list_mem_filter hv).2
    unfold VideoRepository.listFilter at hf
    simp only [Bool.and_eq_true, Option.isNone_iff_eq_none] at hf
    exact hf.1

theorem soft_deleted_rows_invisible_witness :
    VideoRepository.find_by_id dbW1 1 = none ∧
    VideoRepository.update dbW1 9 1 (some "x") none = (none, dbW1) := by
  have h := soft_deleted_rows_invisible dbW1 9 1 (some "x") none (by decide)
  exact ⟨h.1, h.2.1⟩

/-- C2 counterexample: an active row whose `youtube_id` contains the
search string while its `title` does not is NOT returned by
`VideoRepository.list` (and is not counted in `total`), because the
repository's search clause only covers `title`. -/
theorem list_search_ignores_youtube_id_cex :
    cv2.deleted_at = none ∧
    strContains cv2.youtube_id "SEARCH" = true ∧
    strContains cv2.title "SEARCH" = false ∧
    db2.rows = [cv2] ∧
    q2.search = some "SEARCH" ∧
    VideoRepository.list db2 q2 = ([], 0) :=
  ⟨rfl, by decide, by decide, rfl, rfl, by decide⟩

/-- C2 (amended).  For a list query with a search string present, the
repository matches the search against `title` only: every returned row
is active and has the search string as a substring of its `title`, and
`total` counts exactly the active rows whose `title` contains the search
string.  (`youtube_id` is not searched; the title-OR-youtube_id match
exists only in the `db.rs::list_videos` variant, which in turn does not
exclude soft-deleted rows.) -/
theorem list_search_title_only (db : Db) (q : VideoQuery) (s : String)
    (hs : q.search = some s) :
    (∀ v ∈ (VideoRepository.list db q).1,
      v.deleted_at = none ∧ strContains v.title s = true) ∧
    (VideoRepository.list db q).2 =
      (db.rows.filter (fun v => v.deleted_at.isNone && strContains v.title s)).length := by
  have hp : VideoRepository.listFilter q =
      fun v => v.deleted_at.isNone && strContains v.title s := by
    funext v
    simp [VideoRepository.listFilter, hs]
  constructor
  · intro v hv
    have hf := (mem_list_mem_filter hv).2
    rw [hp] at hf
    simp only [Bool.and_eq_true, Option.isNone_iff_eq_none] at hf
    exact hf
  · simp only [VideoRepository.list, hp]

theorem list_search_title_only_witness :
    qW2.search = some "match" ∧
    (VideoRepository.list dbW2 qW2).2 =
      (dbW2.rows.filter
        (fun v => v.deleted_at.isNone && strContains v.title "match")).length := by
  have h := list_search_title_only dbW2 qW2 "match" rfl
  exact ⟨rfl, h.2⟩

/-- C3 counterexample: with `order_by = "title"` and
`order_direction = "asc"`, the repository still returns rows in
`created_at` descending order — here titles come back as `["b", "a"]`,
not ascending by title. -/
theorem list_order_by_title_asc_cex :
    q3.order_by = some "title" ∧
    q3.order_direction = some "asc" ∧
    (VideoRepository.list db3 q3).1.map (fun v => v.title) = ["b", "a"] ∧
    (["b", "a"] : List String) ≠ ["a", "b"] :=
  ⟨rfl, rfl, by decide, by decide⟩

/-- C3 (amended).  `VideoRepository.list` never reads `order_by` or
`order_direction`: changing them leaves the result unchanged, and the
returned rows are always sorted descending by `created_at`.  (The
requested-field/direction selection with `created_at`/`desc` fallbacks
exists only in the `db.rs::list_videos` variant.) -/
theorem list_orders_created_at_desc_only (db : Db) (q : VideoQuery)
    (ob od : Option String) :
    VideoRepository.list db { q with order_by := ob, order_direction := od } =
      VideoRepository.list db q ∧
    List.Sorted createdDescRel (VideoRepository.list db q).1 := by
  constructor
  · rfl
  · have hs : List.Sorted createdDescRel
        (sortByCreatedDesc (db.rows.filter (VideoRepository.listFilter q))) :=
      List.sorted_insertionSort createdDescRel _
    have hsub : List.Sublist (VideoRepository.list db q).1
        (sortByCreatedDesc (db.rows.filter (VideoRepository.listFilter q))) := by
      simp only [VideoRepository.list]
      exact (List.take_sublist _ _).trans (List.drop_sublist _ _)
    exact List.Pairwise.sublist hsub hs

/-- The service's `delete_video` returns whatever state the repository's
`delete` produced, in both branches. -/
theorem delete_video_state (db : Db) (now id : Nat) :
    (VideoService.delete_video db now id).2 = (VideoRepository.delete db now id).2 := by
  unfold VideoService.delete_video
  rcases VideoRepository.delete db now id with ⟨deleted, db'⟩
  cases deleted <;> rfl

/-- `VideoRepository.delete` on a found active row: returns `true` and
tombstones every row carrying the id. -/
theorem delete_found (db : Db) (now id : Nat) (v : Video)
    (hv : VideoRepository.find_by_id db id = some v) :
    VideoRepository.delete db now id =
      (true,
       { db with rows := db.rows.map (fun w =>
          if w.id = id then { w with deleted_at := some now, updated_at := now }
          else w) }) := by
  simp [VideoRepository.delete, hv]

/-- C4.  Delete semantics: when an active row with the id exists,
`delete_video` returns `Ok true` and every row with that id is
tombstoned with `deleted_at = now`; when no active row exists it returns
`NotFound` and leaves the table untouched; and a second consecutive
`delete_video` of the same id always returns `NotFound` without changing
any row. -/
theorem delete_video_semantics (db : Db) (now now2 : Nat) (id : Nat) :
    (∀ v, VideoRepository.find_by_id db id = some v →
      (VideoService.delete_video db now id).1 = Except.ok true ∧
      (∀ w ∈ ((VideoService.delete_video db now id).2).rows,
        w.id = id → w.deleted_at = some now)) ∧
    (VideoRepository.find_by_id db id = none →
      VideoService.delete_video db now id =
        (Except.error (AppError.NotFound (VideoService.notFoundMsg id)), db)) ∧
    (VideoService.delete_video ((VideoService.delete_video db now id).2) now2 id =
      (Except.error (AppError.NotFound (VideoService.notFoundMsg id)),
       (VideoService.delete_video db now id).2)) := by
  refine ⟨?_, ?_, ?_⟩
  · intro v hv
    have heq := delete_found db now id v hv
    constructor
    · simp [VideoService.delete_video, heq]
    · intro w hw hid
      rw [delete_video_state, heq] at hw
      obtain ⟨u, _, rfl⟩ := List.mem_map.mp hw
      by_cases hu : u.id = id
      · simp [hu]
      · rw [if_neg hu] at hid ⊢
        exact absurd hid hu
  · exact delete_video_notfound db now id
  · have h0 : VideoRepository.find_by_id
        ((VideoService.delete_video db now id).2) id = none := by
      rw [delete_video_state]
      exact find_by_id_after_delete db now id
    exact delete_video_notfound _ now2 id h0

theorem delete_video_semantics_witness :
    (VideoService.delete_video dbW4 5 1).1 = Except.ok true ∧
    VideoService.delete_video ((VideoService.delete_video dbW4 5 1).2) 6 1 =
      (Except.error (AppError.NotFound (VideoService.notFoundMsg 1)),
       (VideoService.delete_video dbW4 5 1).2) := by
  have h := delete_video_semantics dbW4 5 6 1
  exact ⟨(h.1 ⟨1, "t", "yyyyyyyyyyy", 0, 0, none⟩ (by decide)).1, h.2.2⟩

/-- C5.  A create request with title length in [1, 100] and youtube_id
length exactly 11 passes validation; `create_video` succeeds and the
returned response has a positive id (the autoincrement counter, which
starts at 1), equal `created_at` and `updated_at` (both the operation's
clock reading), and a null `deleted_at`. -/
theorem create_video_valid_ok (db : Db) (now : Nat) (req : CreateVideoRequest)
    (ht1 : 1 ≤ req.title.length) (ht2 : req.title.length ≤ 100)
    (hy : req.youtube_id.length = 11) (hid : 1 ≤ db.nextId) :
    (VideoService.create_video db now req).1 =
      Except.ok ⟨db.nextId, req.title, req.youtube_id, now, now, none⟩ ∧
    (∀ resp db', VideoService.create_video db now req = (Except.ok resp, db') →
      0 < resp.id ∧ resp.created_at = resp.updated_at ∧ resp.deleted_at = none) := by
  have h1 : lengthOk req.title 1 100 = true := by
    simp [lengthOk, ht1, ht2]
  have h2 : (req.youtube_id.length == 11) = true := by
    simp [hy]
  have hv : CreateVideoRequest.validate req = Except.ok () := by
    simp [CreateVideoRequest.validate, h1, h2]
  have heq : VideoService.create_video db now req =
      (Except.ok ⟨db.nextId, req.title, req.youtube_id, now, now, none⟩,
       ⟨db.rows ++ [⟨db.nextId, req.title, req.youtube_id, now, now, none⟩],
        db.nextId + 1⟩) := by
    simp [VideoService.create_video, hv, VideoRepository.create,
      VideoService.toResponse]
  refine ⟨by rw [heq], ?_⟩
  intro resp db' h
  rw [heq] at h
  injection h with hfst _
  injection hfst with hr
  subst hr
  exact ⟨hid, rfl, rfl⟩

theorem create_video_valid_ok_witness :
    (VideoService.create_video ⟨[], 1⟩ 0 ⟨"T", "dQw4w9WgXcQ"⟩).1 =
      Except.ok ⟨1, "T", "dQw4w9WgXcQ", 0, 0, none⟩ ∧
    (0 < 1 ∧ (0 : Nat) = 0 ∧ (none : Option Nat) = none) := by
  have h := create_video_valid_ok ⟨[], 1⟩ 0 ⟨"T", "dQw4w9WgXcQ"⟩
    (by decide) (by decide) (by decide) (by decide)
  exact ⟨h.1, h.2 ⟨1, "T", "dQw4w9WgXcQ", 0, 0, none⟩
    ⟨[⟨1, "T", "dQw4w9WgXcQ", 0, 0, none⟩], 2⟩ rfl⟩

/-- C6.  Partial update frame: updating an existing active row with only
a title changes exactly the title, returns a response keeping the row's
id, youtube_id, created_at and deleted_at, sets `updated_at` to the
operation's clock reading (strictly above `created_at` whenever the
clock has advanced since creation), and rows with other ids are left
unchanged, while the targeted rows change only title and updated_at. -/
theorem update_video_partial_title (db : Db) (now : Nat) (id : Nat) (t : String)
    (v : Video) (hfind : VideoRepository.find_by_id db id = some v)
    (ht1 : 1 ≤ t.length) (ht2 : t.length ≤ 100) :
    (VideoService.update_video db now id ⟨some t, none⟩).1 =
      Except.ok ⟨v.id, t, v.youtube_id, v.created_at, now, v.deleted_at⟩ ∧
    (∀ resp : VideoResponse,
      (VideoService.update_video db now id ⟨some t, none⟩).1 = Except.ok resp →
        resp.title = t ∧ resp.youtube_id = v.youtube_id ∧ resp.id = v.id ∧
        resp.created_at = v.created_at ∧ resp.updated_at = now ∧
        resp.deleted_at = v.deleted_at ∧
        (v.created_at < now → resp.created_at < resp.updated_at)) ∧
    (∀ w ∈ db.rows,
      (w.id = id →
        { w with title := t, updated_at := now } ∈
          ((VideoService.update_video db now id ⟨some t, none⟩).2).rows) ∧
      (w.id ≠ id →
        w ∈ ((VideoService.update_video db now id ⟨some t, none⟩).2).rows)) := by
  have hL : lengthOk t 1 100 = true := by
    simp [lengthOk, ht1, ht2]
  have hv : UpdateVideoRequest.validate ⟨some t, none⟩ = Except.ok () := by
    simp [UpdateVideoRequest.validate, hL]
  have heq : VideoService.update_video db now id ⟨some t, none⟩ =
      (Except.ok ⟨v.id, t, v.youtube_id, v.created_at, now, v.deleted_at⟩,
       ⟨db.rows.map (fun w =>
          if w.id = id then { w with title := t, updated_at := now } else w),
        db.nextId⟩) := by
    simp [VideoService.update_video, hv, VideoRepository.update, hfind,
      VideoService.toResponse, Option.getD_some, Option.getD_none]
  refine ⟨by rw [heq], ?_, ?_⟩
  · intro resp h
    rw [heq] at h
    injection h with hr
    subst hr
    exact ⟨rfl, rfl, rfl, rfl, rfl, rfl, fun hlt => hlt⟩
  · intro w hw
    constructor
    · intro hwid
      rw [heq]
      exact List.mem_map.mpr ⟨w, hw, by simp [hwid]⟩
    · intro hwid
      rw [heq]
      exact List.mem_map.mpr ⟨w, hw, by simp [hwid]⟩

theorem update_video_partial_title_witness :
    (VideoService.update_video dbW6 5 1 ⟨some "New", none⟩).1 =
      Except.ok ⟨1, "New", "yyyyyyyyyyy", 0, 5, none⟩ ∧
    ({ vW6 with title := "New", updated_at := 5 } ∈
      ((VideoService.update_video dbW6 5 1 ⟨some "New", none⟩).2).rows) := by
  have h := update_video_partial_title dbW6 5 1 "New" vW6
    (by decide) (by decide) (by decide)
  exact ⟨h.1, (h.2.2 vW6 (by decide)).1 (by decide)⟩

/-- C7.  Validation atomicity: a create request with an empty title, an
overlong title, or a youtube_id of length other than 11 is rejected with
a validation error and the table is returned unchanged (the repository
is never reached). -/
theorem create_video_invalid_rejected (db : Db) (now : Nat)
    (req : CreateVideoRequest)
    (h : req.title = "" ∨ 100 < req.title.length ∨ req.youtube_id.length ≠ 11) :
    isValidationErr (VideoService.create_video db now req).1 = true ∧
    (VideoService.create_video db now req).2 = db := by
  obtain ⟨e, he⟩ : ∃ e, CreateVideoRequest.validate req = Except.error e := by
    unfold CreateVideoRequest.validate
    rcases h with h | h | h
    · have hL : lengthOk req.title 1 100 = false := by
        rw [h]; decide
      simp [hL]
    · have hL : lengthOk req.title 1 100 = false := by
        have hx : ¬ req.title.length ≤ 100 := by omega
        simp [lengthOk, hx]
      simp [hL]
    · have hY : (req.youtube_id.length == 11) = false := by
        simp [h]
      simp [hY]
  simp [VideoService.create_video, he, isValidationErr]

theorem create_video_invalid_rejected_witness :
    isValidationErr (VideoService.create_video ⟨[], 1⟩ 0 ⟨"", "dQw4w9WgXcQ"⟩).1 = true ∧
    (VideoService.create_video ⟨[], 1⟩ 0 ⟨"", "dQw4w9WgXcQ"⟩).2 = ⟨[], 1⟩ :=
  create_video_invalid_rejected ⟨[], 1⟩ 0 ⟨"", "dQw4w9WgXcQ"⟩ (Or.inl rfl)

/-- C10.  A successful `delete` tombstones the row AND refreshes its
`updated_at` (the `before_save` hook runs on the tombstone write):
afterwards the targeted rows have `deleted_at = now` and
`updated_at = now` while keeping id, title, youtube_id and created_at,
and rows with other ids are untouched. -/
theorem delete_sets_updated_at (db : Db) (now : Nat) (id : Nat) (v : Video)
    (hfind : VideoRepository.find_by_id db id = some v) :
    (VideoRepository.delete db now id).1 = true ∧
    ((VideoRepository.delete db now id).2).rows.length = db.rows.length ∧
    (∀ w ∈ db.rows,
      (w.id = id →
        { w with deleted_at := some now, updated_at := now } ∈
          ((VideoRepository.delete db now id).2).rows) ∧
      (w.id ≠ id → w ∈ ((VideoRepository.delete db now id).2).rows)) ∧
    (∀ w ∈ ((VideoRepository.delete db now id).2).rows,
      w.id = id → w.deleted_at = some now ∧ w.updated_at = now) := by
  have heq := delete_found db now id v hfind
  refine ⟨by rw [heq], ?_, ?_, ?_⟩
  · rw [heq]
    exact List.length_map _ _
  · intro w hw
    constructor
    · intro hwid
      rw [heq]
      exact List.mem_map.mpr ⟨w, hw, by simp [hwid]⟩
    · intro hwid
      rw [heq]
      exact List.mem_map.mpr ⟨w, hw, by simp [hwid]⟩
  · intro w hw hid
    rw [heq] at hw
    obtain ⟨u, _, rfl⟩ := List.mem_map.mp hw
    by_cases hu : u.id = id
    · simp [hu]
    · rw [if_neg hu] at hid ⊢
      exact absurd hid hu

theorem delete_sets_updated_at_witness :
    (VideoRepository.delete dbW10 7 1).1 = true ∧
    ({ vW10 with deleted_at := some 7, updated_at := 7 } ∈
      ((VideoRepository.delete dbW10 7 1).2).rows) := by
  have h := delete_sets_updated_at dbW10 7 1 vW10 (by decide)
  exact ⟨h.1, (h.2.2.1 vW10 (by decide)).1 (by decide)⟩

end NtexApp
